import Mathlib

/-!
Shallow embedding of `cargo-clippy-lints` (`src/main.rs`).

Filesystem paths are modeled as lists of path components counted from the
filesystem root: the root directory is `[]`, `Path::join` is appending a
component, and `Path::parent` is `List.dropLast` (which is undefined — `None`
in Rust — exactly at the root). The filesystem itself, process spawning and
the raw argument list are external effects and enter the model as explicit
parameters: an existence predicate for `Path::exists`, a read function for
`fs::read_to_string`, and a `SpawnOutcome` for the child process.
-/

/-- Values of the structured markup (TOML) documents the config file holds, as
far as the config schema can observe them: strings, two representative
non-string scalar shapes, and arrays. -/
inductive TomlValue where
  | str : String → TomlValue
  | int : Int → TomlValue
  | boolean : Bool → TomlValue
  | arr : List TomlValue → TomlValue

/-- Rust struct `Lints` from `src/main.rs`: the three lint lists, in the
source's field order (`deny`, `allow`, `warn`), each a list of strings. -/
structure Lints where
  deny : List String
  allow : List String
  warn : List String
deriving DecidableEq

/-- Rust associated constant `Lints::FILE_NAME`. -/
def Lints.FILE_NAME : String := "lints.toml"

/-- Rust `Lints::default()` from `#[derive(Default)]`: all three lists empty. -/
def Lints.default : Lints := ⟨[], [], []⟩

/-- Rust `Lints::find_config_path`: starting from the current directory `cur`
(obtained in Rust from `env::current_dir`, here a parameter), loop: join the
lints filename onto the cursor and test existence (`ex` models
`Path::exists`); on a hit return that joined path, otherwise move the cursor
to its parent, and return `none` when the cursor has no parent (the root). -/
def Lints.find_config_path (ex : List String → Bool) (cur : List String) :
    Option (List String) :=
  if ex (cur ++ [Lints.FILE_NAME]) then some (cur ++ [Lints.FILE_NAME])
  else if h : cur = [] then none
  else Lints.find_config_path ex cur.dropLast
termination_by cur.length
decreasing_by
  simp only [List.length_dropLast]
  exact Nat.sub_lt (List.length_pos.mpr h) Nat.one_pos

/-- Chain of ancestor-or-self directories of `cur`, innermost (most specific)
first, ending at the filesystem root `[]`. Used to state what the locator's
loop visits. -/
def ancestorChain (cur : List String) : List (List String) :=
  if h : cur = [] then [[]]
  else cur :: ancestorChain cur.dropLast
termination_by cur.length
decreasing_by
  simp only [List.length_dropLast]
  exact Nat.sub_lt (List.length_pos.mpr h) Nat.one_pos

/-- Fuel-indexed transcription of the locator's loop: one unit of fuel per
iteration, `none` when the fuel runs out before the loop finishes. Makes the
loop's iteration count observable so termination can be stated. -/
def find_config_path_fuel (ex : List String → Bool) :
    Nat → List String → Option (Option (List String))
  | 0, _ => none
  | fuel + 1, cur =>
    if ex (cur ++ [Lints.FILE_NAME]) then some (some (cur ++ [Lints.FILE_NAME]))
    else if cur = [] then some none
    else find_config_path_fuel ex fuel cur.dropLast

/-- Unfolding equation of the recursive locator (its definition uses
well-founded recursion, so this is proved once and used as a rewrite). -/
theorem find_config_path_eq (ex : List String → Bool) (cur : List String) :
    Lints.find_config_path ex cur =
      if ex (cur ++ [Lints.FILE_NAME]) then some (cur ++ [Lints.FILE_NAME])
      else if cur = [] then none
      else Lints.find_config_path ex cur.dropLast := by
  rw [Lints.find_config_path]
  split
  · rfl
  · split <;> rfl

/-- Unfolding equation of `ancestorChain`. -/
theorem ancestorChain_eq (cur : List String) :
    ancestorChain cur =
      if cur = [] then [[]] else cur :: ancestorChain cur.dropLast := by
  rw [ancestorChain]
  split <;> rfl

/-- Deserializing one TOML value as a string (one element of a `Vec<String>`
field): only a string value succeeds. -/
def TomlValue.asString : TomlValue → Option String
  | .str s => some s
  | _ => none

/-- Deserializing every element of a TOML array as a string, in order,
failing on the first non-string element. -/
def asStrings : List TomlValue → Option (List String)
  | [] => some []
  | v :: vs =>
    match v.asString, asStrings vs with
    | some s, some ss => some (s :: ss)
    | _, _ => none

/-- Deserializing a TOML value as a `Vec<String>`: it must be an array all of
whose elements are strings. -/
def TomlValue.asStringList : TomlValue → Option (List String)
  | .arr vs => asStrings vs
  | _ => none

/-- Reading one `#[serde(default)]` field of `Lints` out of a document: a
missing key defaults to the empty list, a present key must hold a string
array. Models the derived `serde::Deserialize` field handling declared on the
`Lints` struct in `src/main.rs`. -/
def getLintField (doc : List (String × TomlValue)) (key : String) :
    Option (List String) :=
  match doc.lookup key with
  | none => some []
  | some v => v.asStringList

/-- Deserializing the `Lints` struct from the top-level key/value pairs of a
well-formed document: the three declared keys are read (defaulting
independently), every other key is ignored (the derive has no
`deny_unknown_fields`). -/
def deserializeLints (doc : List (String × TomlValue)) : Option Lints :=
  match getLintField doc "deny", getLintField doc "allow", getLintField doc "warn" with
  | some d, some a, some w => some ⟨d, a, w⟩
  | _, _, _ => none

/-- Contents of a file as `toml::from_str::<Lints>` can observe them: either
text that is not a well-formed document (carrying the parser's own detail
message) or a well-formed document given by its top-level key/value pairs. -/
inductive FileData where
  | malformed : String → FileData
  | wellFormed : List (String × TomlValue) → FileData

/-- Rust `toml::from_str::<Lints>` on pre-tokenized file contents: malformed
text is a parse error with the parser's detail; a well-formed document is
deserialized per the schema, failing (with serde's type-error detail) when a
declared key does not hold a string array. -/
def toml_from_str : FileData → Except String Lints
  | .malformed detail => .error detail
  | .wellFormed doc =>
    match deserializeLints doc with
    | none => .error "invalid type: expected a sequence of strings"
    | some lints => .ok lints

/-- Rust `Lints::from_config_with_path`: read the file (`fsread` models
`fs::read_to_string`, its error value the OS detail string), attaching the
context `Failed to read config` to read failures; then parse, attaching the
context `Failed to parse config` to parse failures. Mirrors the `anyhow`
context chain rendering `context: detail`. -/
def Lints.from_config_with_path (fsread : List String → Except String FileData)
    (path : List String) : Except String Lints :=
  match fsread path with
  | .error e => .error ("Failed to read config: " ++ e)
  | .ok data =>
    match toml_from_str data with
    | .error e => .error ("Failed to parse config: " ++ e)
    | .ok lints => .ok lints

/-- Rust `Lints::from_config`: locate the config file; when none is found the
default (all-empty) `Lints` is returned successfully, otherwise the found
path is read and parsed. -/
def Lints.from_config (ex : List String → Bool)
    (fsread : List String → Except String FileData) (cwd : List String) :
    Except String Lints :=
  match Lints.find_config_path ex cwd with
  | none => .ok Lints.default
  | some path => Lints.from_config_with_path fsread path

/-- Rust `Lints::deny_flags`: for each deny lint, in order, the two tokens
`-D` then the lint. -/
def Lints.deny_flags (l : Lints) : List String :=
  l.deny.flatMap fun lint => ["-D", lint]

/-- Rust `Lints::warn_flags`: for each warn lint, in order, the two tokens
`-W` then the lint. -/
def Lints.warn_flags (l : Lints) : List String :=
  l.warn.flatMap fun lint => ["-W", lint]

/-- Rust `Lints::allow_flags`: for each allow lint, in order, the two tokens
`-A` then the lint. -/
def Lints.allow_flags (l : Lints) : List String :=
  l.allow.flatMap fun lint => ["-A", lint]

/-- Rust `std::process::Command`, reduced to what the program observes of it:
the program name and the accumulated argument vector. -/
structure Command where
  program : String
  argv : List String

/-- Rust `Command::new`: empty argument vector. -/
def Command.new (program : String) : Command := ⟨program, []⟩

/-- Rust `Command::arg`: append one argument. -/
def Command.arg (c : Command) (a : String) : Command :=
  ⟨c.program, c.argv ++ [a]⟩

/-- Rust `Command::args`: append a sequence of arguments. -/
def Command.args (c : Command) (as : List String) : Command :=
  ⟨c.program, c.argv ++ as⟩

/-- Command built by `Lints::run_clippy` before spawning, by the source's
exact builder chain: program `cargo`, argument `clippy`, the passthrough
`args`, the separator `--`, then warn, deny and allow flags. -/
def Lints.run_clippy_cmd (l : Lints) (args : List String) : Command :=
  ((((((Command.new "cargo").arg "clippy").args args).arg "--").args
      l.warn_flags).args l.deny_flags).args l.allow_flags

/-- Outcome of spawning and awaiting the child process, as seen by
`Lints::run_clippy`: `Command::spawn` failed, `Child::wait` failed, or the
child exited with a status code (`0` is the success status). -/
inductive SpawnOutcome where
  | spawnErr : String → SpawnOutcome
  | waitErr : String → SpawnOutcome
  | exited : Nat → SpawnOutcome

/-- Result part of Rust `Lints::run_clippy`: spawn failures get the context
`Unable to start clippy`, wait failures the context `Unable to wait for
clippy`, and a terminated child yields its exit status. -/
def Lints.run_clippy (l : Lints) (args : List String) (world : SpawnOutcome) :
    Except String Nat :=
  match world with
  | .spawnErr e => .error ("Unable to start clippy: " ++ e)
  | .waitErr e => .error ("Unable to wait for clippy: " ++ e)
  | .exited code => .ok code

/-- Passthrough arguments collected by `main` from the raw process argument
list (`args[0]` is the program's own path): if the second positional argument
equals the sentinel `clippy-lints`, the first two arguments are skipped,
otherwise only the first. Transcribes the `match get_args().nth(1)` in
`main`. -/
def passthroughArgs (args : List String) : List String :=
  match args[1]? with
  | some arg => if arg = "clippy-lints" then args.drop 2 else args.drop 1
  | none => args.drop 1

/-- Unix `Display` rendering of a `std::process::ExitStatus` with exit code
`code`, as interpolated by the `anyhow::bail!` in `main`. -/
def statusDisplay (code : Nat) : String := "exit status: " ++ toString code

/-- Rust `main`: load the config (propagating its failure), run clippy on the
passthrough arguments (propagating spawn/wait failures), then succeed exactly
when the child's status is the success status, otherwise fail with a message
embedding the child's status. -/
def mainResult (ex : List String → Bool)
    (fsread : List String → Except String FileData) (cwd : List String)
    (args : List String) (world : SpawnOutcome) : Except String Unit :=
  match Lints.from_config ex fsread cwd with
  | .error e => .error e
  | .ok lints =>
    match lints.run_clippy (passthroughArgs args) world with
    | .error e => .error e
    | .ok status =>
      if status = 0 then .ok ()
      else .error ("Clippy returned non-0 status: " ++ statusDisplay status)

/-- Abbreviation for a TOML array of strings, used to state parsing claims. -/
def strArr (xs : List String) : TomlValue :=
  TomlValue.arr (xs.map TomlValue.str)

/-- Index characterization of the marker/value pair expansion shared by the
three flag constructors: the result has one two-token pair per source
element, the marker at every even index and the corresponding source element
right after it. -/
theorem flatMap_pair_spec (m : String) (xs : List String) :
    (xs.flatMap fun x => [m, x]).length = 2 * xs.length ∧
    ∀ i, i < xs.length →
      (xs.flatMap fun x => [m, x])[2 * i]? = some m ∧
      (xs.flatMap fun x => [m, x])[2 * i + 1]? = xs[i]? := by
  induction xs with
  | nil => exact ⟨rfl, fun i hi => absurd hi (by simp)⟩
  | cons x xs ih =>
    have e1 : ((x :: xs).flatMap fun y => [m, y]) =
        m :: x :: (xs.flatMap fun y => [m, y]) := by
      simp [List.flatMap_cons]
    constructor
    · rw [e1]
      have := ih.1
      simp only [List.length_cons]
      omega
    · intro i hi
      cases i with
      | zero =>
        rw [e1]
        constructor <;> simp
      | succ j =>
        have hj : j < xs.length := by
          simpa using Nat.lt_of_succ_lt_succ hi
        constructor
        · rw [e1, show 2 * (j + 1) = 2 * j + 1 + 1 by ring,
            List.getElem?_cons_succ, List.getElem?_cons_succ]
          exact (ih.2 j hj).1
        · rw [e1, show 2 * (j + 1) + 1 = 2 * j + 1 + 1 + 1 by ring,
            List.getElem?_cons_succ, List.getElem?_cons_succ,
            List.getElem?_cons_succ]
          exact (ih.2 j hj).2

/-- C7: for every `LintConfig` and every category, the synthesized flag
sequence for that category consists of one two-token pair per list element in
the exact order of the source list — the category's marker (`-D`, `-W`, `-A`
respectively) at index `2*i` followed immediately by the `i`-th lint
identifier — with duplicates preserved unmodified (the `i`-th pair depends
only on the `i`-th element). -/
theorem claim_C7 (l : Lints) :
    (l.deny_flags.length = 2 * l.deny.length ∧ ∀ i, i < l.deny.length →
      l.deny_flags[2 * i]? = some "-D" ∧ l.deny_flags[2 * i + 1]? = l.deny[i]?) ∧
    (l.warn_flags.length = 2 * l.warn.length ∧ ∀ i, i < l.warn.length →
      l.warn_flags[2 * i]? = some "-W" ∧ l.warn_flags[2 * i + 1]? = l.warn[i]?) ∧
    (l.allow_flags.length = 2 * l.allow.length ∧ ∀ i, i < l.allow.length →
      l.allow_flags[2 * i]? = some "-A" ∧ l.allow_flags[2 * i + 1]? = l.allow[i]?) :=
  ⟨flatMap_pair_spec "-D" l.deny, flatMap_pair_spec "-W" l.warn,
    flatMap_pair_spec "-A" l.allow⟩

/-- Witness for C7 at `deny = ["a", "b"]`: the first pair of the deny flags is
`-D a`, as in the spec's example. -/
theorem claim_C7_witness :
    0 < (Lints.mk ["a", "b"] ["c"] ["d"]).deny.length ∧
    ((Lints.mk ["a", "b"] ["c"] ["d"]).deny_flags[2 * 0]? = some "-D" ∧
      (Lints.mk ["a", "b"] ["c"] ["d"]).deny_flags[2 * 0 + 1]? =
        (Lints.mk ["a", "b"] ["c"] ["d"]).deny[0]?) :=
  ⟨by decide, (claim_C7 (Lints.mk ["a", "b"] ["c"] ["d"])).1.2 0 (by decide)⟩

/-- C1: for every `LintConfig` and every passthrough argument list, the child
command's argument list is exactly the fixed subcommand token `clippy`, then
the passthrough arguments verbatim and in order, then the separator `--`,
then all warn flags, then all deny flags, then all allow flags; and the child
program is `cargo`. -/
theorem claim_C1 (l : Lints) (args : List String) :
    (l.run_clippy_cmd args).program = "cargo" ∧
    (l.run_clippy_cmd args).argv =
      "clippy" :: (args ++ "--" :: (l.warn_flags ++ (l.deny_flags ++ l.allow_flags))) := by
  refine ⟨rfl, ?_⟩
  simp [Lints.run_clippy_cmd, Command.new, Command.arg, Command.args]

/-- C4: the passthrough arguments are a pure function of the second
positional argument of the raw process argument list — when it equals the
sentinel `clippy-lints` the first two raw arguments are removed, otherwise
only the first. -/
theorem claim_C4 (args : List String) :
    (args[1]? = some "clippy-lints" → passthroughArgs args = args.drop 2) ∧
    (args[1]? ≠ some "clippy-lints" → passthroughArgs args = args.drop 1) := by
  constructor
  · intro h
    simp [passthroughArgs, h]
  · intro h
    rcases e : args[1]? with _ | a
    · simp [passthroughArgs, e]
    · have ha : ¬a = "clippy-lints" := fun hq => h (hq ▸ e)
      simp [passthroughArgs, e, ha]

/-- Witness for C4: with the sentinel as second argument, the program path
and the sentinel are both removed. -/
theorem claim_C4_witness :
    (["prog", "clippy-lints", "x"] : List String)[1]? = some "clippy-lints" ∧
    passthroughArgs ["prog", "clippy-lints", "x"] =
      (["prog", "clippy-lints", "x"] : List String).drop 2 :=
  ⟨by decide, (claim_C4 ["prog", "clippy-lints", "x"]).1 (by decide)⟩

/-- C10: the sentinel is recognized only as the second positional argument —
every raw argument from position two onward survives into the passthrough
arguments (they are a suffix of it), and in direct invocation form (second
argument not the sentinel) everything after the program path is forwarded,
including any later occurrence of the sentinel. -/
theorem claim_C10 (args : List String) :
    List.IsSuffix (args.drop 2) (passthroughArgs args) ∧
    (args[1]? ≠ some "clippy-lints" → passthroughArgs args = args.drop 1) := by
  have hsfx : List.IsSuffix (args.drop 2) (args.drop 1) := by
    have h12 : (args.drop 1).drop 1 = args.drop 2 := by
      simp [List.drop_drop]
    exact h12 ▸ List.drop_suffix 1 (args.drop 1)
  have hdirect : args[1]? ≠ some "clippy-lints" →
      passthroughArgs args = args.drop 1 := by
    intro h
    rcases e : args[1]? with _ | a
    · simp [passthroughArgs, e]
    · have ha : ¬a = "clippy-lints" := fun hq => h (hq ▸ e)
      simp [passthroughArgs, e, ha]
  refine ⟨?_, hdirect⟩
  by_cases h : args[1]? = some "clippy-lints"
  · have : passthroughArgs args = args.drop 2 := by simp [passthroughArgs, h]
    rw [this]
  · rw [hdirect h]
    exact hsfx

/-- Witness for C10: a sentinel occurrence in third position is forwarded
verbatim. -/
theorem claim_C10_witness :
    (["prog", "a", "clippy-lints"] : List String)[1]? ≠ some "clippy-lints" ∧
    passthroughArgs ["prog", "a", "clippy-lints"] =
      (["prog", "a", "clippy-lints"] : List String).drop 1 :=
  ⟨by decide, (claim_C10 ["prog", "a", "clippy-lints"]).2 (by decide)⟩

/-- Correspondence between the locator's loop and a first-match search over
the innermost-first ancestor chain. -/
theorem find_config_eq_chain_find (ex : List String → Bool) (cur : List String) :
    Lints.find_config_path ex cur =
      ((ancestorChain cur).find? fun d => ex (d ++ [Lints.FILE_NAME])).map
        fun d => d ++ [Lints.FILE_NAME] := by
  have key : ∀ n (cur : List String), cur.length ≤ n →
      Lints.find_config_path ex cur =
        ((ancestorChain cur).find? fun d => ex (d ++ [Lints.FILE_NAME])).map
          fun d => d ++ [Lints.FILE_NAME] := by
    intro n
    induction n with
    | zero =>
      intro cur hle
      have hc : cur = [] := List.length_eq_zero.mp (Nat.le_zero.mp hle)
      subst hc
      rw [find_config_path_eq, ancestorChain_eq]
      by_cases hex : ex ([] ++ [Lints.FILE_NAME])
      · simp [hex]
      · simp [hex]
    | succ n ih =>
      intro cur hle
      rw [find_config_path_eq, ancestorChain_eq]
      by_cases hc : cur = []
      · subst hc
        by_cases hex : ex ([] ++ [Lints.FILE_NAME])
        · simp [hex]
        · simp [hex]
      · by_cases hex : ex (cur ++ [Lints.FILE_NAME])
        · simp [hex, hc]
        · have hlen : cur.dropLast.length ≤ n := by
            have h1 := List.length_dropLast cur
            have h2 : 0 < cur.length := List.length_pos.mpr hc
            omega
          simp only [if_neg hex, if_neg hc]
          rw [ih cur.dropLast hlen]
          simp [List.find?_cons, hex]
  exact key cur.length cur le_rfl

/-- C2: for every starting directory, the locator returns the joined config
path of the first (innermost-first) ancestor-or-self directory whose joined
config path exists, and returns `none` exactly when no directory of the
ancestor chain — the root `[]` included — has it. -/
theorem claim_C2 (ex : List String → Bool) (cur : List String) :
    Lints.find_config_path ex cur =
      ((ancestorChain cur).find? fun d => ex (d ++ [Lints.FILE_NAME])).map
        (fun d => d ++ [Lints.FILE_NAME]) ∧
    (Lints.find_config_path ex cur = none ↔
      ∀ d ∈ ancestorChain cur, ex (d ++ [Lints.FILE_NAME]) = false) := by
  refine ⟨find_config_eq_chain_find ex cur, ?_⟩
  rw [find_config_eq_chain_find ex cur]
  simp [List.find?_eq_none]

/-- C3: the locator's iterative ascent terminates — run with one unit of fuel
per loop iteration, a fuel budget of the starting directory's depth plus one
never runs out (each iteration strictly shrinks the cursor), and the loop
ends at the root with a match or `none`, agreeing with the total function. -/
theorem claim_C3 (ex : List String → Bool) (cur : List String) :
    find_config_path_fuel ex (cur.length + 1) cur =
      some (Lints.find_config_path ex cur) := by
  have key : ∀ fuel (cur : List String), cur.length < fuel →
      find_config_path_fuel ex fuel cur =
        some (Lints.find_config_path ex cur) := by
    intro fuel
    induction fuel with
    | zero => intro cur h; omega
    | succ n ih =>
      intro cur h
      rw [find_config_path_eq]
      by_cases hex : ex (cur ++ [Lints.FILE_NAME])
      · simp [find_config_path_fuel, hex]
      · by_cases hc : cur = []
        · subst hc
          simp only [List.nil_append] at hex
          simp [find_config_path_fuel, hex]
        · have hlen : cur.dropLast.length < n := by
            have h1 := List.length_dropLast cur
            have h2 : 0 < cur.length := List.length_pos.mpr hc
            omega
          simp only [find_config_path_fuel, if_neg hex, if_neg hc]
          exact ih cur.dropLast hlen
  exact key (cur.length + 1) cur (Nat.lt_succ_self _)

/-- C8: when the locator finds no config file, the configuration used is the
all-empty default, all three flag constructors produce zero flags, and the
child receives nothing after the separator. -/
theorem claim_C8 (ex : List String → Bool)
    (fsread : List String → Except String FileData) (cwd args : List String)
    (h : Lints.find_config_path ex cwd = none) :
    Lints.from_config ex fsread cwd = Except.ok Lints.default ∧
    Lints.default.warn_flags = [] ∧ Lints.default.deny_flags = [] ∧
    Lints.default.allow_flags = [] ∧
    (Lints.default.run_clippy_cmd args).argv = "clippy" :: (args ++ ["--"]) := by
  refine ⟨?_, rfl, rfl, rfl, ?_⟩
  · unfold Lints.from_config
    rw [h]
  · simp [Lints.run_clippy_cmd, Command.new, Command.arg, Command.args,
      Lints.default, Lints.warn_flags, Lints.deny_flags, Lints.allow_flags]

/-- Witness for C8 in a filesystem with no config file anywhere. -/
theorem claim_C8_witness :
    Lints.find_config_path (fun _ => false) [] = none ∧
    Lints.from_config (fun _ => false) (fun _ => Except.error "io") [] =
      Except.ok Lints.default := by
  have hf : Lints.find_config_path (fun _ => false) [] = none := by
    rw [find_config_path_eq]; simp
  exact ⟨hf,
    (claim_C8 (fun _ => false) (fun _ => Except.error "io") [] ["x"] hf).1⟩

/-- Two appended strings differ whenever their left parts differ at some
character position present in both. Used to separate the run's distinct
failure messages. -/
theorem append_ne_of_ne_at (p q a b : String) (i : Nat) (c₁ c₂ : Char)
    (h₁ : p.data[i]? = some c₁) (h₂ : q.data[i]? = some c₂) (hne : c₁ ≠ c₂) :
    p ++ a ≠ q ++ b := by
  intro h
  have hd : p.data ++ a.data = q.data ++ b.data := by
    have := congrArg String.data h
    simpa [String.data_append] using this
  have hi₁ : i < p.data.length := by
    by_contra hlt
    push_neg at hlt
    rw [List.getElem?_eq_none hlt] at h₁
    exact Option.noConfusion h₁
  have hi₂ : i < q.data.length := by
    by_contra hlt
    push_neg at hlt
    rw [List.getElem?_eq_none hlt] at h₂
    exact Option.noConfusion h₂
  have e₁ : (p.data ++ a.data)[i]? = some c₁ := by
    rw [List.getElem?_append_left hi₁]; exact h₁
  have e₂ : (q.data ++ b.data)[i]? = some c₂ := by
    rw [List.getElem?_append_left hi₂]; exact h₂
  rw [hd, e₂] at e₁
  exact hne (Option.some.inj e₁).symm

/-- C5: in every run whose configuration loaded successfully, a child exit
status of 0 makes the run succeed; any non-zero exit status makes the run
fail with a message embedding that status; spawn and wait failures produce
their own messages; and the non-zero-exit message never coincides with a
spawn-failure or wait-failure message. -/
theorem claim_C5 (ex : List String → Bool)
    (fsread : List String → Except String FileData) (cwd rawArgs : List String)
    (l : Lints) (h : Lints.from_config ex fsread cwd = Except.ok l) :
    mainResult ex fsread cwd rawArgs (SpawnOutcome.exited 0) = Except.ok () ∧
    (∀ c, c ≠ 0 → mainResult ex fsread cwd rawArgs (SpawnOutcome.exited c) =
      Except.error ("Clippy returned non-0 status: " ++ statusDisplay c)) ∧
    (∀ e, mainResult ex fsread cwd rawArgs (SpawnOutcome.spawnErr e) =
      Except.error ("Unable to start clippy: " ++ e)) ∧
    (∀ e, mainResult ex fsread cwd rawArgs (SpawnOutcome.waitErr e) =
      Except.error ("Unable to wait for clippy: " ++ e)) ∧
    (∀ c e, ("Clippy returned non-0 status: " ++ statusDisplay c) ≠
      ("Unable to start clippy: " ++ e)) ∧
    (∀ c e, ("Clippy returned non-0 status: " ++ statusDisplay c) ≠
      ("Unable to wait for clippy: " ++ e)) := by
  refine ⟨?_, ?_, ?_, ?_, ?_, ?_⟩
  · simp [mainResult, h, Lints.run_clippy]
  · intro c hc
    simp [mainResult, h, Lints.run_clippy, hc]
  · intro e
    simp [mainResult, h, Lints.run_clippy]
  · intro e
    simp [mainResult, h, Lints.run_clippy]
  · intro c e
    exact append_ne_of_ne_at _ _ _ _ 0 'C' 'U' (by decide) (by decide) (by decide)
  · intro c e
    exact append_ne_of_ne_at _ _ _ _ 0 'C' 'U' (by decide) (by decide) (by decide)

/-- Counterexample to C6 as stated: the loader's failure report does not
involve the file path — two runs at different paths, both unreadable with the
same OS detail, produce literally identical errors, so the report cannot
distinguish which file path was involved. -/
theorem claim_C6_counterexample :
    Lints.from_config_with_path (fun _ => Except.error "os error 2")
        ["a", "lints.toml"] =
      Lints.from_config_with_path (fun _ => Except.error "os error 2")
        ["b", "lints.toml"] ∧
    (["a", "lints.toml"] : List String) ≠ ["b", "lints.toml"] ∧
    Lints.from_config_with_path (fun _ => Except.error "os error 2")
        ["a", "lints.toml"] =
      Except.error ("Failed to read config: " ++ "os error 2") :=
  ⟨rfl, by decide, rfl⟩

/-- C6 (amended): the loader succeeds with the default all-empty config when
the locator found no path; when a path was found it fails distinctly for the
two fatal cases — unreadable file versus readable-but-malformed file — with
stage-identifying context messages that can never coincide; the reported
context does not include the file path. -/
theorem claim_C6 (ex : List String → Bool)
    (fsread : List String → Except String FileData) (cwd path : List String) :
    (Lints.find_config_path ex cwd = none →
      Lints.from_config ex fsread cwd = Except.ok Lints.default) ∧
    (∀ e, fsread path = Except.error e →
      Lints.from_config_with_path fsread path =
        Except.error ("Failed to read config: " ++ e)) ∧
    (∀ d e, fsread path = Except.ok d → toml_from_str d = Except.error e →
      Lints.from_config_with_path fsread path =
        Except.error ("Failed to parse config: " ++ e)) ∧
    (∀ e₁ e₂, ("Failed to read config: " ++ e₁) ≠
      ("Failed to parse config: " ++ e₂)) := by
  refine ⟨?_, ?_, ?_, ?_⟩
  · intro h
    simp [Lints.from_config, h]
  · intro e he
    simp [Lints.from_config_with_path, he]
  · intro d e hd hp
    simp [Lints.from_config_with_path, hd, hp]
  · intro e₁ e₂
    exact append_ne_of_ne_at _ _ _ _ 10 'r' 'p' (by decide) (by decide) (by decide)

/-- Witness for C6 (amended): an unreadable config file is reported as a read
failure with its stage context. -/
theorem claim_C6_witness :
    (fun (_ : List String) =>
        (Except.error "os error 2" : Except String FileData)) ["lints.toml"] =
      Except.error "os error 2" ∧
    Lints.from_config_with_path (fun _ => Except.error "os error 2")
        ["lints.toml"] =
      Except.error ("Failed to read config: " ++ "os error 2") :=
  ⟨rfl, (claim_C6 (fun _ => false) (fun _ => Except.error "os error 2") []
    ["lints.toml"]).2.1 "os error 2" rfl⟩

/-- Deserializing a TOML string array built from a string list recovers the
list, in order. -/
theorem asStrings_map_str (xs : List String) :
    asStrings (xs.map TomlValue.str) = some xs := by
  induction xs with
  | nil => rfl
  | cons x xs ih => simp [asStrings, ih, TomlValue.asString]

/-- Deserializing `strArr xs` as a `Vec<String>` yields `xs`. -/
theorem strArr_asStringList (xs : List String) :
    (strArr xs).asStringList = some xs := by
  simp [strArr, TomlValue.asStringList, asStrings_map_str]

/-- Field reading skips a leading pair whose key is a different one. -/
theorem getLintField_cons_ne (k key : String) (v : TomlValue)
    (doc : List (String × TomlValue)) (h : k ≠ key) :
    getLintField ((k, v) :: doc) key = getLintField doc key := by
  have hb : (key == k) = false := beq_eq_false_iff_ne.mpr (Ne.symm h)
  simp [getLintField, List.lookup, hb]

/-- C9: a well-formed config document with the three keys present as string
arrays deserializes to exactly those three lists in order; each key defaults
independently to the empty list when omitted; an end-to-end read of such a
file succeeds with those lists; and an unknown top-level key is ignored
rather than rejected. -/
theorem claim_C9 (ds as ws : List String) (doc : List (String × TomlValue))
    (k : String) (v : TomlValue) :
    deserializeLints
        [("deny", strArr ds), ("allow", strArr as), ("warn", strArr ws)] =
      some ⟨ds, as, ws⟩ ∧
    deserializeLints [] = some ⟨[], [], []⟩ ∧
    deserializeLints [("deny", strArr ds)] = some ⟨ds, [], []⟩ ∧
    deserializeLints [("allow", strArr as)] = some ⟨[], as, []⟩ ∧
    deserializeLints [("warn", strArr ws)] = some ⟨[], [], ws⟩ ∧
    Lints.from_config_with_path
        (fun _ => Except.ok (FileData.wellFormed
          [("deny", strArr ds), ("allow", strArr as), ("warn", strArr ws)]))
        [Lints.FILE_NAME] =
      Except.ok ⟨ds, as, ws⟩ ∧
    (k ≠ "deny" → k ≠ "allow" → k ≠ "warn" →
      deserializeLints ((k, v) :: doc) = deserializeLints doc) := by
  have hbig : deserializeLints
      [("deny", strArr ds), ("allow", strArr as), ("warn", strArr ws)] =
      some ⟨ds, as, ws⟩ := by
    have g1 : getLintField
        [("deny", strArr ds), ("allow", strArr as), ("warn", strArr ws)]
        "deny" = some ds := by
      rw [show getLintField
          [("deny", strArr ds), ("allow", strArr as), ("warn", strArr ws)]
          "deny" = (strArr ds).asStringList from rfl, strArr_asStringList]
    have g2 : getLintField
        [("deny", strArr ds), ("allow", strArr as), ("warn", strArr ws)]
        "allow" = some as := by
      rw [show getLintField
          [("deny", strArr ds), ("allow", strArr as), ("warn", strArr ws)]
          "allow" = (strArr as).asStringList from rfl, strArr_asStringList]
    have g3 : getLintField
        [("deny", strArr ds), ("allow", strArr as), ("warn", strArr ws)]
        "warn" = some ws := by
      rw [show getLintField
          [("deny", strArr ds), ("allow", strArr as), ("warn", strArr ws)]
          "warn" = (strArr ws).asStringList from rfl, strArr_asStringList]
    unfold deserializeLints
    rw [g1, g2, g3]
  refine ⟨hbig, rfl, ?_, ?_, ?_, ?_, ?_⟩
  · have g1 : getLintField [("deny", strArr ds)] "deny" = some ds := by
      rw [show getLintField [("deny", strArr ds)] "deny" =
        (strArr ds).asStringList from rfl, strArr_asStringList]
    unfold deserializeLints
    rw [g1]
    rfl
  · have g2 : getLintField [("allow", strArr as)] "allow" = some as := by
      rw [show getLintField [("allow", strArr as)] "allow" =
        (strArr as).asStringList from rfl, strArr_asStringList]
    unfold deserializeLints
    rw [g2]
    rfl
  · have g3 : getLintField [("warn", strArr ws)] "warn" = some ws := by
      rw [show getLintField [("warn", strArr ws)] "warn" =
        (strArr ws).asStringList from rfl, strArr_asStringList]
    unfold deserializeLints
    rw [g3]
    rfl
  · simp [Lints.from_config_with_path, toml_from_str, hbig]
  · intro h1 h2 h3
    unfold deserializeLints
    rw [getLintField_cons_ne k "deny" v doc h1,
      getLintField_cons_ne k "allow" v doc h2,
      getLintField_cons_ne k "warn" v doc h3]

/-- Witness for C9: an unrecognized top-level key is ignored. -/
theorem claim_C9_witness :
    ("other" : String) ≠ "deny" ∧
    deserializeLints [("other", TomlValue.int 3), ("deny", strArr ["a"])] =
      deserializeLints [("deny", strArr ["a"])] :=
  ⟨by decide,
    (claim_C9 ["a"] [] [] [("deny", strArr ["a"])] "other"
      (TomlValue.int 3)).2.2.2.2.2.2 (by decide) (by decide) (by decide)⟩

/-- Witness for C5: with an empty default configuration loaded, a child exit
status of 0 yields overall success. -/
theorem claim_C5_witness :
    Lints.from_config (fun _ => false) (fun _ => Except.error "io") [] =
      Except.ok Lints.default ∧
    mainResult (fun _ => false) (fun _ => Except.error "io") [] ["prog"]
      (SpawnOutcome.exited 0) = Except.ok () := by
  have hf : Lints.find_config_path (fun _ => false) [] = none := by
    rw [find_config_path_eq]
    simp
  have h0 : Lints.from_config (fun _ => false) (fun _ => Except.error "io") [] =
      Except.ok Lints.default := by
    simp [Lints.from_config, hf]
  exact ⟨h0,
    (claim_C5 (fun _ => false) (fun _ => Except.error "io") [] ["prog"]
      Lints.default h0).1⟩
